import Mathlib

/-!
Verification of the `new_new_news` artifact-research pipeline.

This file gives a shallow embedding, in Lean 4, of the deterministic scoring
and report-shaping code of the repository:

* `agents/pricing_normalizer.py` — valuation scorer (base ranges, five factors,
  composite score, estimated value, confidence score);
* `agents/categorizer.py` — categorization validation and the group-by-type
  fallback categorization;
* `agents/report_composer.py` — report totals, artifact entry sorting and
  re-indexing;
* `agents/citation_verifier.py` — source relevance/quality scoring, the
  additional-source search filter and the rank-and-cap logic;
* `agents/artifact_enricher.py` — the fallback enrichment profile.

Python strings are modelled by `String`, Python floats by `ℚ` (all the scoring
arithmetic is exact decimal arithmetic), Python ints by `ℤ`/`ℕ`, dictionaries
by structures (a `get` with a default becomes an `Option` field read with
`getD` where the key can genuinely be absent).
-/

/-- Lowercase a string character by character; models Python `str.lower()` on
the ASCII data this pipeline handles. -/
def lowerStr (s : String) : String := ⟨s.data.map Char.toLower⟩

/-- Substring membership: `pat` occurs contiguously in `hay`.  Models the
Python `in` operator on strings (in particular `strContains hay "" = true`). -/
def strContains (hay pat : String) : Bool :=
  (List.range (hay.data.length + 1)).any (fun i => pat.data.isPrefixOf (hay.data.drop i))

/-- Number of (possibly overlapping) occurrences of `pat` in `hay`: the count
of start positions at which `pat` occurs. -/
def countOccurrences (hay pat : String) : ℕ :=
  ((List.range (hay.data.length + 1)).filter (fun i => pat.data.isPrefixOf (hay.data.drop i))).length

/-- Split a character list at every character satisfying `p`, keeping empty
pieces (the behavior of splitting a string at each separator character). -/
def splitChars (p : Char → Bool) : List Char → List (List Char)
  | [] => [[]]
  | c :: rest =>
    if p c then [] :: splitChars p rest
    else
      match splitChars p rest with
      | [] => [[c]]
      | piece :: pieces => (c :: piece) :: pieces

/-- Python `s.split()`: split on whitespace, dropping empty pieces. -/
def pyWords (s : String) : List String :=
  ((splitChars Char.isWhitespace s.data).map (fun l => (⟨l⟩ : String))).filter
    (fun w => decide (w ≠ ""))

/-- Python string slicing `s[:n]`: the first `n` characters. -/
def strTake (s : String) (n : ℕ) : String := ⟨s.data.take n⟩

/- ## Pricing normalizer (`agents/pricing_normalizer.py`) -/

/-- A source dictionary as read by the pricing normalizer
(`_assess_source_quality` uses `url`, `title`, `description`). -/
structure PSource where
  title : String
  url : String
  snippet : String
  description : String
  date : String

/-- An artifact as read by the pricing normalizer.  `relevance_score` models
`artifact.get("relevance_score", 0.5)`: the key may be absent. -/
structure PArtifact where
  title : String
  description : String
  typ : String
  date : String
  relevance_score : Option ℚ
  sources : List PSource

/-- Base valuation ranges by artifact type, in USD
(`PricingNormalizerAgent.base_valuations`). -/
def baseValuations : List (String × (ℤ × ℤ)) :=
  [("Research Paper", (50000, 500000)),
   ("Clinical Trial Data", (100000, 1000000)),
   ("Regulatory Submission", (200000, 2000000)),
   ("Software Release", (50000, 500000)),
   ("Policy Document", (100000, 1000000)),
   ("Technical Specification", (50000, 300000)),
   ("Dataset", (100000, 800000)),
   ("Patent", (500000, 5000000)),
   ("Default", (25000, 250000))]

/-- `self.base_valuations.get(artifact_type, self.base_valuations["Default"])`. -/
def baseRange (t : String) : ℤ × ℤ := (baseValuations.lookup t).getD (25000, 250000)

/-- Domains counted as high quality by `_assess_source_quality`. -/
def highQualityDomains : List String :=
  ["nejm.org", "nature.com", "science.org", "fda.gov", "nih.gov", "who.int", "cdc.gov", "arxiv.org"]

/-- Peer-review indicator terms of `_assess_source_quality`. -/
def peerReviewTerms : List String := ["peer review", "published", "journal"]

/-- Per-source contribution accumulated by the loop of `_assess_source_quality`:
0.4 for a high-quality domain in the URL plus 0.2 for a peer-review term in
title+description. -/
def sourceQualityContrib (s : PSource) : ℚ :=
  (if highQualityDomains.any (fun d => strContains (lowerStr s.url) d) then 0.4 else 0) +
  (if peerReviewTerms.any (fun t => strContains (lowerStr (s.title ++ " " ++ s.description)) t)
    then 0.2 else 0)

/-- `PricingNormalizerAgent._assess_source_quality`. -/
def assessSourceQuality (a : PArtifact) : ℚ :=
  if a.sources.isEmpty then 0.3
  else min ((a.sources.map sourceQualityContrib).sum / (a.sources.length : ℚ)) 1

/-- The ten high-impact keywords of `_assess_impact_indicators`. -/
def highImpactTerms : List String :=
  ["breakthrough", "first", "novel", "pioneering", "groundbreaking",
   "efficacy", "approved", "authorized", "landmark", "milestone"]

/-- `text = title.lower() + " " + description.lower()` of `_assess_impact_indicators`. -/
def impactText (a : PArtifact) : String := lowerStr a.title ++ " " ++ lowerStr a.description

/-- `any(str(num) + "%" in text for num in range(85, 100))`. -/
def hasHighPercent (text : String) : Bool :=
  (List.range' 85 15).any (fun n => strContains text (toString n ++ "%"))

/-- `PricingNormalizerAgent._assess_impact_indicators`. -/
def assessImpactIndicators (a : PArtifact) : ℚ :=
  let text := impactText a
  let kwScore : ℚ := highImpactTerms.foldl (fun acc t => if strContains text t then acc + 0.15 else acc) 0
  let score := if hasHighPercent text then kwScore + 0.2 else kwScore
  min score 1

/-- Novelty terms of `_assess_uniqueness`. -/
def noveltyTerms : List String := ["first", "novel", "new", "pioneering"]

/-- `PricingNormalizerAgent._assess_uniqueness`. -/
def assessUniqueness (a : PArtifact) : ℚ :=
  let title := lowerStr a.title
  let s1 : ℚ := if noveltyTerms.any (fun t => strContains title t) then 0.5 + 0.3 else 0.5
  let s2 := if a.typ = "Regulatory Submission" ∨ a.typ = "Patent" then s1 + 0.2 else s1
  min s2 1

/-- `PricingNormalizerAgent._assess_timeliness`. -/
def assessTimeliness (a : PArtifact) : ℚ :=
  if strContains a.date "2020" then 0.9
  else if strContains a.date "2021" then 0.6
  else 0.3

/-- The `relevance` factor: `artifact.get("relevance_score", 0.5)`. -/
def relevanceFactor (a : PArtifact) : ℚ := a.relevance_score.getD 0.5

/-- `composite_score = sum(factors[k] * weights[k] for k in factors)` with the
fixed weights of `_calculate_valuation`. -/
def compositeScore (a : PArtifact) : ℚ :=
  relevanceFactor a * 0.25 + assessSourceQuality a * 0.25 + assessImpactIndicators a * 0.25 +
    assessUniqueness a * 0.15 + assessTimeliness a * 0.10

/-- Python `int(...)` on a float/rational: truncation toward zero. -/
def ratTrunc (q : ℚ) : ℤ := if 0 ≤ q then ⌊q⌋ else ⌈q⌉

/-- `estimated_value = int(base_min + (base_max - base_min) * composite_score)`
from `_calculate_valuation`. -/
def estimatedValue (a : PArtifact) : ℤ :=
  let r := baseRange a.typ
  ratTrunc ((r.1 : ℚ) + ((r.2 : ℚ) - (r.1 : ℚ)) * compositeScore a)

/-- `PricingNormalizerAgent._calculate_confidence`. -/
def calcConfidence (a : PArtifact) : ℚ :=
  let sourceConfidence := min ((a.sources.length : ℚ) / 3) 1
  let factorConfidence := (relevanceFactor a + assessSourceQuality a + assessImpactIndicators a +
      assessUniqueness a + assessTimeliness a) / 5
  sourceConfidence * 0.6 + factorConfidence * 0.4

/- ## Categorizer (`agents/categorizer.py`) -/

/-- Concatenation of `artifact_indices` over all categories, as built by the
validation loop (`all_indices = []; for cat: all_indices.extend(...)`).
Indices are modelled as `ℤ` because they arrive from parsed JSON and may be
negative or out of range. -/
def collectIndices (cats : List (List ℤ)) : List ℤ :=
  cats.foldl (fun acc c => acc ++ c) []

/-- The validation part of `CategorizerAgent._validate_and_enrich_categories`:
raises (here: returns `Except.error`) unless every artifact index appears
exactly once and all indices are in range. -/
def validateCategories (cats : List (List ℤ)) (numArtifacts : ℕ) : Except String Unit :=
  let allIndices := collectIndices cats
  if allIndices.length ≠ numArtifacts then
    Except.error "Not all artifacts categorized"
  else if allIndices.dedup.length ≠ allIndices.length then
    Except.error "Duplicate artifact assignments detected"
  else if ¬ (∀ i ∈ allIndices, 0 ≤ i ∧ i < (numArtifacts : ℤ)) then
    Except.error "Invalid artifact index detected"
  else
    Except.ok ()

/-- The valuation sub-dictionary carried by artifacts after pricing. -/
structure CValuation where
  estimated_value : ℤ
  confidence_score : ℚ

/-- An artifact as seen by the categorizer fallback and the report composer.
`valuation` is an `Option` because the code reads it with
`artifact.get("valuation", {})`. -/
structure VArtifact where
  title : String
  typ : String
  description : String
  url : String
  date : String
  relevance_score : ℚ
  valuation : Option CValuation

/-- `artifact.get("valuation", {}).get("estimated_value", 0)`. -/
def artifactValue (a : VArtifact) : ℤ :=
  match a.valuation with
  | some v => v.estimated_value
  | none => 0

/-- Insertion of a dictionary key, preserving first-occurrence order as a
Python dict does. -/
def insertKey (ks : List String) (t : String) : List String :=
  if t ∈ ks then ks else ks ++ [t]

/-- The keys of `type_groups` in `_fallback_categorization`, in insertion
order (order of first occurrence of each type). -/
def typeKeys (arts : List VArtifact) : List String :=
  arts.foldl (fun ks a => insertKey ks a.typ) []

/-- `type_groups[t]`: the indices of the artifacts whose type is `t`, in
enumeration order. -/
def typeIndices (arts : List VArtifact) (t : String) : List ℕ :=
  (arts.enum.filter (fun p => p.2.typ == t)).map (fun p => p.1)

/-- `type_values[t]`: the summed estimated value of the artifacts of type `t`. -/
def typeValue (arts : List VArtifact) (t : String) : ℤ :=
  ((arts.filter (fun a => a.typ == t)).map artifactValue).sum

/-- `sorted(type_values.items(), key=lambda x: x[1], reverse=True)[:5]`:
the type keys stably sorted by total value descending, truncated to five. -/
def topTypes (arts : List VArtifact) : List String :=
  ((typeKeys arts).mergeSort (fun t u => decide (typeValue arts u ≤ typeValue arts t))).take 5

/-- A category record as produced by the fallback categorization. -/
structure FCategory where
  name : String
  description : String
  artifact_indices : List ℕ
  total_value : ℤ
  artifact_count : ℕ
  reasoning : String

/-- `CategorizerAgent._fallback_categorization` (the `categories` list it
returns). -/
def fallbackCategorization (arts : List VArtifact) : List FCategory :=
  (topTypes arts).map (fun t =>
    { name := t ++ "s",
      description := "Collection of " ++ t ++ " artifacts from the research.",
      artifact_indices := typeIndices arts t,
      total_value := typeValue arts t,
      artifact_count := (typeIndices arts t).length,
      reasoning := "Grouped by artifact type (fallback categorization)" })

/- ## Report composer (`agents/report_composer.py`) -/

/-- An artifact index entry as built by `_create_artifact_entries` (the fields
relevant to ordering and totals). -/
structure ReportEntry where
  index_number : ℕ
  title : String
  typ : String
  description : String
  url : String
  date : String
  estimated_value : ℤ
  confidence_score : ℚ
  relevance_score : ℚ

/-- One entry of the artifact index, before sorting, with index `idx`. -/
def mkEntry (idx : ℕ) (a : VArtifact) : ReportEntry :=
  { index_number := idx,
    title := a.title,
    typ := a.typ,
    description := a.description,
    url := a.url,
    date := a.date,
    estimated_value := artifactValue a,
    confidence_score := match a.valuation with | some v => v.confidence_score | none => 0,
    relevance_score := a.relevance_score }

/-- `for idx, artifact in enumerate(artifacts, 1): entries.append({...})`. -/
def mkEntries (n : ℕ) : List VArtifact → List ReportEntry
  | [] => []
  | a :: rest => mkEntry n a :: mkEntries (n + 1) rest

/-- `for idx, entry in enumerate(entries, 1): entry["index_number"] = idx`. -/
def reindexFrom (n : ℕ) : List ReportEntry → List ReportEntry
  | [] => []
  | e :: rest => { e with index_number := n } :: reindexFrom (n + 1) rest

/-- `ReportComposerAgent._create_artifact_entries`: build entries, sort by
estimated value descending (Python `list.sort` is stable, modelled by a stable
merge sort), then re-index 1..N. -/
def createArtifactEntries (arts : List VArtifact) : List ReportEntry :=
  let entries := mkEntries 1 arts
  let sorted := entries.mergeSort (fun e f => decide (f.estimated_value ≤ e.estimated_value))
  reindexFrom 1 sorted

/-- The report fields named by the specification's end-to-end property. -/
structure Report where
  metadata_num_artifacts : ℕ
  metadata_total_estimated_value : ℤ
  summary_total_estimated_value : ℤ
  artifacts : List ReportEntry

/-- The report assembly of `ReportComposerAgent.execute`: both
`metadata.total_estimated_value` and the executive summary total are
`sum(a.get("valuation", {}).get("estimated_value", 0) for a in artifacts)`. -/
def composeReport (arts : List VArtifact) : Report :=
  { metadata_num_artifacts := arts.length,
    metadata_total_estimated_value := (arts.map artifactValue).sum,
    summary_total_estimated_value := (arts.map artifactValue).sum,
    artifacts := createArtifactEntries arts }

/- ## Citation verifier (`agents/citation_verifier.py`) -/

/-- `MIN_SOURCES_PER_ARTIFACT` from `config.py`. -/
def MIN_SOURCES_PER_ARTIFACT : ℕ := 2

/-- `MAX_SOURCES_PER_ARTIFACT` from `config.py`. -/
def MAX_SOURCES_PER_ARTIFACT : ℕ := 3

/-- The `validation` record attached to each source by `_validate_sources`. -/
structure SValidation where
  quality_score : ℚ
  verified : Bool
  quality_factors : List String

/-- A source dictionary as handled by the citation verifier.
`relevance_score` is optional (`source.get("relevance_score", 0.5)` in the
ranking step); `validation` is absent until `_validate_sources` runs. -/
structure CSource where
  stype : String
  title : String
  url : String
  snippet : String
  description : String
  date : String
  relevance_score : Option ℚ
  validation : Option SValidation

/-- Trusted domains of `_calculate_source_quality`. -/
def trustedDomains : List String :=
  ["nejm.org", "nature.com", "science.org", "fda.gov", "nih.gov", "who.int", "cdc.gov",
   "arxiv.org", "pfizer.com", "modernatx.com", "biontech.com"]

/-- Quality indicator terms of `_calculate_source_quality`. -/
def qualityIndicatorTerms : List String := ["peer review", "published", "official"]

/-- `CitationVerifierAgent._calculate_source_quality`: base 0.5, +0.3 for a
trusted domain in the URL (the loop breaks after the first match, so at most
once), +0.1 for a quality term, +0.1 for a description longer than 100
characters; clipped to 1.0. -/
def calcSourceQuality (s : CSource) : ℚ :=
  let url := lowerStr s.url
  let text := lowerStr (s.title ++ " " ++ s.description)
  let s1 : ℚ := 0.5 + (if trustedDomains.any (fun d => strContains url d) then 0.3 else 0)
  let s2 := s1 + (if qualityIndicatorTerms.any (fun t => strContains text t) then 0.1 else 0)
  let s3 := s2 + (if 100 < s.description.length then 0.1 else 0)
  min s3 1

/-- `CitationVerifierAgent._get_quality_factors`. -/
def getQualityFactors (s : CSource) : List String :=
  let url := lowerStr s.url
  let text := lowerStr (s.title ++ " " ++ s.description)
  (if ["gov", "edu"].any (fun d => strContains url d) then ["authoritative_domain"] else []) ++
  (if strContains text "peer review" || strContains text "published" then ["peer_reviewed"] else []) ++
  (if 100 < s.description.length then ["detailed_description"] else []) ++
  (if strContains s.date "2020" then ["correct_year"] else [])

/-- `CitationVerifierAgent._validate_sources`: annotate each source in place
with a `validation` record; `verified` is `quality_score > 0.5`. -/
def validateSources (sources : List CSource) : List CSource :=
  sources.map (fun s =>
    let q := calcSourceQuality s
    { s with validation := some ({ quality_score := q,
                                   verified := decide ((0.5 : ℚ) < q),
                                   quality_factors := getQualityFactors s } : SValidation) })

/-- `CitationVerifierAgent._calculate_source_quality_score`: mean of the
sources' validation quality scores (default 0.5), 0.0 on an empty list. -/
def sourceQualityScore (sources : List CSource) : ℚ :=
  if sources.isEmpty then 0
  else ((sources.map (fun s => ((s.validation.map (fun v => v.quality_score)).getD 0.5))).sum) /
    (sources.length : ℚ)

/-- `CitationVerifierAgent._calculate_source_relevance`, as a function of the
candidate source's `title` and `description` fields and the artifact's title. -/
def calcSourceRelevance (sourceTitle sourceDescription artifactTitle : String) : ℚ :=
  let aTitle := lowerStr artifactTitle
  let sTitle := lowerStr sourceTitle
  let sText := sTitle ++ " " ++ lowerStr sourceDescription
  let aWords := (pyWords aTitle).dedup
  let sWords := (pyWords sTitle).dedup
  let overlap := aWords.filter (fun w => decide (w ∈ sWords))
  let s1 : ℚ := if ¬ overlap.isEmpty then 0.3 * ((overlap.length : ℚ) / (max aWords.length 1 : ℕ)) else 0
  let s2 := s1 + (if strContains sText (strTake aTitle 30) then 0.5 else 0)
  let s3 := s2 + (if strContains sText "2020" then 0.2 else 0)
  min s3 1

/-- A raw search hit as returned by `web_search`; `description` and `age` are
read with defaults (`hit.get("description", hit.get("snippet", ""))`,
`hit.get("age", "2020")`), so they are optional. -/
structure Hit where
  title : String
  url : String
  snippet : String
  description : Option String
  age : Option String

/-- The source dictionary built from a hit in `_find_additional_sources`.
Note the relevance is computed from the hit with
`_calculate_source_relevance(hit, artifact)`, which reads the hit's
`description` with default `""`. -/
def mkAdditionalSource (h : Hit) (artifactTitle : String) : CSource :=
  { stype := "web",
    title := h.title,
    url := h.url,
    snippet := h.snippet,
    description := h.description.getD h.snippet,
    date := h.age.getD "2020",
    relevance_score := some (calcSourceRelevance h.title (h.description.getD "") artifactTitle),
    validation := none }

/-- `CitationVerifierAgent._find_additional_sources` on a successful search:
build a source from each hit and keep those with relevance score above 0.3. -/
def findAdditionalSources (hits : List Hit) (artifactTitle : String) : List CSource :=
  (hits.map (fun h => mkAdditionalSource h artifactTitle)).filter
    (fun s => decide ((0.3 : ℚ) < s.relevance_score.getD 0.5))

/-- The combined score of `_rank_and_filter_sources`:
`(quality * 0.6) + (relevance * 0.4)` with relevance defaulting to 0.5. -/
def combinedScore (s : CSource) : ℚ :=
  calcSourceQuality s * 0.6 + s.relevance_score.getD 0.5 * 0.4

/-- `CitationVerifierAgent._rank_and_filter_sources`: stable sort by combined
score, descending. -/
def rankAndFilterSources (sources : List CSource) : List CSource :=
  sources.mergeSort (fun s t => decide (combinedScore t ≤ combinedScore s))

/-- The `citation_metadata` record attached by `_verify_and_enhance_citations`. -/
structure CitationMetadata where
  num_sources : ℕ
  meets_minimum : Bool
  verification_status : String
  source_quality_score : ℚ

/-- `CitationVerifierAgent._verify_and_enhance_citations`, parameterized by the
artifact's current sources and title and by the hits the additional-source
search returns: top up below the minimum, cap above the maximum by ranked
truncation, then validate and attach metadata. -/
def verifyAndEnhanceCitations (initialSources : List CSource) (artifactTitle : String)
    (hits : List Hit) : List CSource × CitationMetadata :=
  let cur0 := initialSources
  let cur1 := if cur0.length < MIN_SOURCES_PER_ARTIFACT
    then cur0 ++ findAdditionalSources hits artifactTitle else cur0
  let cur2 := if MAX_SOURCES_PER_ARTIFACT < cur1.length
    then (rankAndFilterSources cur1).take MAX_SOURCES_PER_ARTIFACT else cur1
  let validated := validateSources cur2
  (validated,
    { num_sources := validated.length,
      meets_minimum := decide (MIN_SOURCES_PER_ARTIFACT ≤ validated.length),
      verification_status :=
        if MIN_SOURCES_PER_ARTIFACT ≤ validated.length then "verified" else "insufficient",
      source_quality_score := sourceQualityScore validated })

/- ## Artifact enricher (`agents/artifact_enricher.py`) -/

/-- An artifact as handled by the enricher: the four profile fields
(`description`, `producer_teams`, `client_context`, `significance`), the
`enrichment_fallback` marker, and the remaining dictionary entries, which the
enricher never touches, abstracted as `others`. -/
structure EArtifact where
  title : String
  typ : String
  description : String
  url : String
  date : String
  producer_teams : Option String
  client_context : Option String
  significance : Option String
  enrichment_fallback : Bool
  others : List (String × String)

/-- `ArtifactEnricherAgent._fallback_profile`: `{**artifact, ...}` overriding
exactly the four profile fields and the `enrichment_fallback` marker. -/
def fallbackProfile (a : EArtifact) (year : ℤ) : EArtifact :=
  let d := strTake a.description 200
  { a with
    description := if 50 < d.length then d else a.typ ++ " artifact: " ++ a.title,
    producer_teams := some ("Professional teams in " ++ a.typ ++ " domain"),
    client_context := some "Commissioned for organizational or regulatory needs",
    significance := some ("Significant " ++ a.typ ++ " artifact from " ++ toString year),
    enrichment_fallback := true }

/-- Modelled from the source: with the mock API client, `express_query` on an
enrichment prompt returns the structured-extraction mock, whose `answer` is a
JSON object rather than the expected JSON array, so `_parse_batch_response`
raises, `execute` catches the batch failure, and every artifact of every batch
receives `_fallback_profile`.  Hence the enrichment stage under the mock client
is exactly a map of `fallbackProfile` over the artifact list. -/
def enrichArtifactsMock (arts : List EArtifact) (year : ℤ) : List EArtifact :=
  arts.map (fun a => fallbackProfile a year)

/- ## Helper lemmas -/

theorem strContains_nil (hay : String) : strContains hay "" = true := by
  apply List.any_eq_true.mpr
  refine ⟨0, by simp [List.mem_range], ?_⟩
  simp [List.isPrefixOf]

theorem foldl_if_add (p : String → Bool) (c : ℚ) (L : List String) (acc : ℚ) :
    L.foldl (fun a t => if p t then a + c else a) acc = acc + c * ((L.filter p).length : ℚ) := by
  induction L generalizing acc with
  | nil => simp
  | cons x xs ih =>
    by_cases hp : p x
    · simp only [List.foldl_cons, List.filter_cons, hp, if_true, List.length_cons]
      rw [ih]
      push_cast
      ring
    · simp only [List.foldl_cons, List.filter_cons, hp, if_false]
      rw [ih]
      simp [hp]

/-- The number of high-impact keywords present (at least once) in the
artifact's title+description text. -/
def numImpactTermsPresent (a : PArtifact) : ℕ :=
  (highImpactTerms.filter (fun t => strContains (impactText a) t)).length

theorem impactClosedForm (a : PArtifact) :
    assessImpactIndicators a =
      min ((0.15 : ℚ) * (numImpactTermsPresent a : ℚ) +
        (if hasHighPercent (impactText a) then 0.2 else 0)) 1 := by
  simp only [assessImpactIndicators, numImpactTermsPresent]
  rw [foldl_if_add]
  split_ifs <;> norm_num

theorem sourceQualityContrib_nonneg (s : PSource) : 0 ≤ sourceQualityContrib s := by
  unfold sourceQualityContrib
  split_ifs <;> norm_num

theorem assessSourceQuality_bounds (a : PArtifact) :
    0 ≤ assessSourceQuality a ∧ assessSourceQuality a ≤ 1 := by
  unfold assessSourceQuality
  split_ifs with h
  · norm_num
  · refine ⟨le_min ?_ zero_le_one, min_le_right _ _⟩
    apply div_nonneg
    · exact List.sum_nonneg (by
        intro x hx
        obtain ⟨s, _, rfl⟩ := List.mem_map.mp hx
        exact sourceQualityContrib_nonneg s)
    · positivity

theorem assessImpact_bounds (a : PArtifact) :
    0 ≤ assessImpactIndicators a ∧ assessImpactIndicators a ≤ 1 := by
  rw [impactClosedForm]
  refine ⟨le_min ?_ zero_le_one, min_le_right _ _⟩
  split_ifs <;> positivity

theorem assessUniqueness_bounds (a : PArtifact) :
    0 ≤ assessUniqueness a ∧ assessUniqueness a ≤ 1 := by
  unfold assessUniqueness
  refine ⟨?_, min_le_right _ _⟩
  refine le_min ?_ zero_le_one
  split_ifs <;> norm_num

theorem assessTimeliness_bounds (a : PArtifact) :
    0 ≤ assessTimeliness a ∧ assessTimeliness a ≤ 1 := by
  unfold assessTimeliness
  split_ifs <;> norm_num

theorem lookup_mem_values {α β : Type} [BEq α] (l : List (α × β)) (a : α) (b : β)
    (h : l.lookup a = some b) : b ∈ l.map Prod.snd := by
  induction l with
  | nil => simp [List.lookup] at h
  | cons p rest ih =>
    obtain ⟨k, v⟩ := p
    rw [List.lookup] at h
    cases hk : (a == k) with
    | true => simp [hk] at h; simp [h]
    | false =>
      simp only [hk] at h
      simpa using Or.inr (ih h)

theorem baseRange_valid (t : String) :
    0 ≤ (baseRange t).1 ∧ (baseRange t).1 ≤ (baseRange t).2 := by
  have hall : ∀ p ∈ baseValuations.map Prod.snd, 0 ≤ p.1 ∧ p.1 ≤ p.2 := by decide
  unfold baseRange
  cases h : baseValuations.lookup t with
  | none => norm_num
  | some v => exact hall v (lookup_mem_values _ _ _ h)

/- ## Claim C1 -/

/-- C1: for every artifact whose five valuation factors yield a composite score
in [0,1], the estimated value lies within the base valuation range for the
artifact's declared type; the fixed lookup table maps type "Patent" to
[500000, 5000000], and any type absent from the table falls back to the
default range [25000, 250000]. -/
theorem estimatedValue_within_base_range (a : PArtifact)
    (h0 : 0 ≤ compositeScore a) (h1 : compositeScore a ≤ 1) :
    ((baseRange a.typ).1 ≤ estimatedValue a ∧ estimatedValue a ≤ (baseRange a.typ).2) ∧
    baseRange "Patent" = (500000, 5000000) ∧
    (∀ t, baseValuations.lookup t = none → baseRange t = (25000, 250000)) := by
  refine ⟨?_, by decide, fun t ht => by unfold baseRange; rw [ht]; rfl⟩
  obtain ⟨hm0, hmm⟩ := baseRange_valid a.typ
  simp only [estimatedValue, ratTrunc]
  have hsub : (0:ℚ) ≤ ((baseRange a.typ).2 : ℚ) - ((baseRange a.typ).1 : ℚ) := by
    rw [sub_nonneg]; exact_mod_cast hmm
  have hx1 : ((baseRange a.typ).1 : ℚ) ≤
      ((baseRange a.typ).1 : ℚ) +
        (((baseRange a.typ).2 : ℚ) - ((baseRange a.typ).1 : ℚ)) * compositeScore a := by
    nlinarith
  have hx0 : (0:ℚ) ≤ ((baseRange a.typ).1 : ℚ) +
      (((baseRange a.typ).2 : ℚ) - ((baseRange a.typ).1 : ℚ)) * compositeScore a :=
    le_trans (by exact_mod_cast hm0) hx1
  rw [if_pos hx0]
  refine ⟨Int.le_floor.mpr hx1, ?_⟩
  have hx2 : ((baseRange a.typ).1 : ℚ) +
      (((baseRange a.typ).2 : ℚ) - ((baseRange a.typ).1 : ℚ)) * compositeScore a ≤
      ((baseRange a.typ).2 : ℚ) := by nlinarith
  calc ⌊((baseRange a.typ).1 : ℚ) +
        (((baseRange a.typ).2 : ℚ) - ((baseRange a.typ).1 : ℚ)) * compositeScore a⌋
      ≤ ⌊(((baseRange a.typ).2 : ℚ))⌋ := Int.floor_le_floor hx2
    _ = (baseRange a.typ).2 := Int.floor_intCast _

/-- Witness for C1: a concrete Patent artifact whose composite score is in
[0,1]. -/
theorem estimatedValue_within_base_range_witness :
    (0 ≤ compositeScore ⟨"", "", "Patent", "", none, []⟩ ∧
      compositeScore ⟨"", "", "Patent", "", none, []⟩ ≤ 1) ∧
    (((baseRange "Patent").1 ≤ estimatedValue ⟨"", "", "Patent", "", none, []⟩ ∧
        estimatedValue ⟨"", "", "Patent", "", none, []⟩ ≤ (baseRange "Patent").2) ∧
      baseRange "Patent" = (500000, 5000000) ∧
      (∀ t, baseValuations.lookup t = none → baseRange t = (25000, 250000))) := by
  have h0 : 0 ≤ compositeScore ⟨"", "", "Patent", "", none, []⟩ := by
    simp +decide [compositeScore, relevanceFactor, assessSourceQuality, assessImpactIndicators,
      assessUniqueness, assessTimeliness, impactText, hasHighPercent, noveltyTerms,
      highImpactTerms]
    norm_num
  have h1 : compositeScore ⟨"", "", "Patent", "", none, []⟩ ≤ 1 := by
    simp +decide [compositeScore, relevanceFactor, assessSourceQuality, assessImpactIndicators,
      assessUniqueness, assessTimeliness, impactText, hasHighPercent, noveltyTerms,
      highImpactTerms]
    norm_num
  exact ⟨⟨h0, h1⟩, estimatedValue_within_base_range _ h0 h1⟩

/- ## Claim C5 -/

/-- C5 counterexample: an artifact carrying an upstream `relevance_score` of
100 (the relevance factor is passed through unclipped) makes the confidence
score exceed 1, so the confidence score is not in [0,1] for all artifact
inputs. -/
theorem calcConfidence_not_always_bounded :
    1 < calcConfidence ⟨"", "", "", "", some 100, []⟩ := by
  simp +decide [calcConfidence, relevanceFactor, assessSourceQuality, assessImpactIndicators,
    assessUniqueness, assessTimeliness, impactText, hasHighPercent, noveltyTerms,
    highImpactTerms]
  norm_num

/-- C5 (amended): the confidence score equals
0.6 * min(source_count/3, 1) + 0.4 * mean(factors), and it lies in [0,1]
whenever the artifact's upstream relevance score — the only factor the code
does not clip — lies in [0,1]. -/
theorem calcConfidence_formula_and_bounds (a : PArtifact)
    (h0 : 0 ≤ relevanceFactor a) (h1 : relevanceFactor a ≤ 1) :
    calcConfidence a =
      min ((a.sources.length : ℚ) / 3) 1 * 0.6 +
        ((relevanceFactor a + assessSourceQuality a + assessImpactIndicators a +
            assessUniqueness a + assessTimeliness a) / 5) * 0.4 ∧
    0 ≤ calcConfidence a ∧ calcConfidence a ≤ 1 := by
  obtain ⟨hq0, hq1⟩ := assessSourceQuality_bounds a
  obtain ⟨hi0, hi1⟩ := assessImpact_bounds a
  obtain ⟨hu0, hu1⟩ := assessUniqueness_bounds a
  obtain ⟨ht0, ht1⟩ := assessTimeliness_bounds a
  have hs0 : (0:ℚ) ≤ min ((a.sources.length : ℚ) / 3) 1 := le_min (by positivity) zero_le_one
  have hs1 : min ((a.sources.length : ℚ) / 3) 1 ≤ 1 := min_le_right _ _
  refine ⟨rfl, ?_, ?_⟩ <;> (simp only [calcConfidence]; linarith)

/-- Witness for C5's amended theorem at a concrete artifact with an absent
relevance score (default 0.5). -/
theorem calcConfidence_formula_and_bounds_witness :
    (0 ≤ relevanceFactor ⟨"", "", "", "", none, []⟩ ∧
      relevanceFactor ⟨"", "", "", "", none, []⟩ ≤ 1) ∧
    (calcConfidence ⟨"", "", "", "", none, []⟩ =
      min (((PArtifact.mk "" "" "" "" none []).sources.length : ℚ) / 3) 1 * 0.6 +
        ((relevanceFactor ⟨"", "", "", "", none, []⟩ +
            assessSourceQuality ⟨"", "", "", "", none, []⟩ +
            assessImpactIndicators ⟨"", "", "", "", none, []⟩ +
            assessUniqueness ⟨"", "", "", "", none, []⟩ +
            assessTimeliness ⟨"", "", "", "", none, []⟩) / 5) * 0.4 ∧
      0 ≤ calcConfidence ⟨"", "", "", "", none, []⟩ ∧
      calcConfidence ⟨"", "", "", "", none, []⟩ ≤ 1) := by
  have h0 : 0 ≤ relevanceFactor ⟨"", "", "", "", none, []⟩ := by norm_num [relevanceFactor]
  have h1 : relevanceFactor ⟨"", "", "", "", none, []⟩ ≤ 1 := by norm_num [relevanceFactor]
  exact ⟨⟨h0, h1⟩, calcConfidence_formula_and_bounds _ h0 h1⟩

/- ## Claim C6 -/

/-- The impact-indicators factor as the specification words it: 0.15 per
occurrence of any of the ten high-impact keywords, counting repeated
occurrences of the same keyword, plus 0.2 for a high percentage, clipped
to 1.0. -/
def impactIndicatorsSpec (a : PArtifact) : ℚ :=
  let text := impactText a
  let occ := (highImpactTerms.map (fun t => countOccurrences text t)).sum
  min ((0.15 : ℚ) * (occ : ℚ) + (if hasHighPercent text then 0.2 else 0)) 1

/-- C6 counterexample: in an artifact titled "first first" the keyword "first"
occurs twice, so 0.15 per occurrence would give 0.30, but the code adds 0.15
at most once per keyword and returns 0.15. -/
theorem impact_per_occurrence_cex :
    assessImpactIndicators ⟨"first first", "", "", "", none, []⟩ = 0.15 ∧
    impactIndicatorsSpec ⟨"first first", "", "", "", none, []⟩ = 0.3 ∧
    assessImpactIndicators ⟨"first first", "", "", "", none, []⟩ ≠
      impactIndicatorsSpec ⟨"first first", "", "", "", none, []⟩ := by
  have htext : impactText ⟨"first first", "", "", "", none, []⟩ = "first first " := by decide
  have hnum : numImpactTermsPresent ⟨"first first", "", "", "", none, []⟩ = 1 := by decide
  have hocc : ((highImpactTerms.map (fun t => countOccurrences "first first " t)).sum) = 2 := by
    decide
  have hpct : hasHighPercent "first first " = false := by decide
  have h1 : assessImpactIndicators ⟨"first first", "", "", "", none, []⟩ = 0.15 := by
    rw [impactClosedForm, hnum, htext, hpct]
    norm_num
  have h2 : impactIndicatorsSpec ⟨"first first", "", "", "", none, []⟩ = 0.3 := by
    simp only [impactIndicatorsSpec, htext, hocc, hpct]
    norm_num
  exact ⟨h1, h2, by rw [h1, h2]; norm_num⟩

/-- C6 (amended): the impact factor is 0.15 per distinct high-impact keyword
present in title+description (0.15 for each keyword occurring at least once,
regardless of how many times it occurs), plus 0.2 if a percentage between 85
and 99 appears in the text, clipped to 1.0. -/
theorem assessImpactIndicators_per_keyword_present (a : PArtifact) :
    assessImpactIndicators a =
      min ((0.15 : ℚ) * (numImpactTermsPresent a : ℚ) +
        (if hasHighPercent (impactText a) then 0.2 else 0)) 1 :=
  impactClosedForm a

/- ## Claim C2 -/

theorem Ico_int_card (N : ℕ) : (Finset.Ico (0:ℤ) (N:ℤ)).card = N := by
  simp

theorem nodup_memIff_length (L : List ℤ) (N : ℕ) (hnd : L.Nodup)
    (hmem : ∀ i : ℤ, i ∈ L ↔ (0 ≤ i ∧ i < (N : ℤ))) : L.length = N := by
  have hperm : L.Perm (Finset.Ico (0:ℤ) (N:ℤ)).toList := by
    refine (List.perm_ext_iff_of_nodup hnd (Finset.nodup_toList _)).mpr ?_
    intro a
    rw [hmem a, Finset.mem_toList, Finset.mem_Ico]
  rw [hperm.length_eq, Finset.length_toList, Ico_int_card]

theorem length_nodup_bounded_memIff (L : List ℤ) (N : ℕ) (hnd : L.Nodup)
    (hlen : L.length = N) (hbd : ∀ i ∈ L, 0 ≤ i ∧ i < (N : ℤ)) :
    ∀ i : ℤ, i ∈ L ↔ (0 ≤ i ∧ i < (N : ℤ)) := by
  have hsub : L.toFinset ⊆ Finset.Ico (0:ℤ) (N:ℤ) := by
    intro a ha
    rw [List.mem_toFinset] at ha
    rw [Finset.mem_Ico]
    exact hbd a ha
  have hcard : (Finset.Ico (0:ℤ) (N:ℤ)).card ≤ L.toFinset.card := by
    rw [List.toFinset_card_of_nodup hnd, hlen, Ico_int_card]
  have heq : L.toFinset = Finset.Ico (0:ℤ) (N:ℤ) := Finset.eq_of_subset_of_card_le hsub hcard
  intro i
  rw [← List.mem_toFinset, heq, Finset.mem_Ico]

/-- C2: the categorization validation accepts a categorization exactly when the
collected `artifact_indices` partition the index set: together they contain
every index 0..N-1 exactly once, with nothing out of range.  Any categorization
with a missing, duplicated, or out-of-range index is rejected with an error. -/
theorem validateCategories_partition (cats : List (List ℤ)) (N : ℕ) (hN : 1 ≤ N) :
    validateCategories cats N = Except.ok () ↔
      ((collectIndices cats).Nodup ∧
        ∀ i : ℤ, i ∈ collectIndices cats ↔ (0 ≤ i ∧ i < (N : ℤ))) := by
  clear hN
  simp only [validateCategories]
  split_ifs with hlen hdup hrange
  · constructor
    · intro h; cases h
    · rintro ⟨hnd, hmem⟩
      exact absurd (nodup_memIff_length _ _ hnd hmem) hlen
  · constructor
    · intro h; cases h
    · rintro ⟨hnd, _⟩
      rw [List.dedup_eq_self.mpr hnd] at hdup
      exact absurd rfl hdup
  · push_neg at hlen hdup
    have hnd : (collectIndices cats).Nodup := by
      have hsb := List.dedup_sublist (collectIndices cats)
      have heq := hsb.eq_of_length hdup
      rw [← heq]
      exact (collectIndices cats).nodup_dedup
    exact ⟨fun _ => ⟨hnd, length_nodup_bounded_memIff _ _ hnd hlen hrange⟩, fun _ => rfl⟩
  · constructor
    · intro h; cases h
    · rintro ⟨_, hmem⟩
      exact absurd (fun i hi => (hmem i).mp hi) hrange

/-- Witness for C2: the two-category partition [[0],[1]] of two artifacts is
accepted and covers 0..1 exactly once. -/
theorem validateCategories_partition_witness :
    (1:ℕ) ≤ 2 ∧
    (validateCategories [[0], [1]] 2 = Except.ok () ↔
      ((collectIndices [[0], [1]]).Nodup ∧
        ∀ i : ℤ, i ∈ collectIndices [[0], [1]] ↔ (0 ≤ i ∧ i < ((2:ℕ) : ℤ)))) :=
  ⟨by norm_num, validateCategories_partition [[0], [1]] 2 (by norm_num)⟩

/- ## Claim C3 -/

theorem mkEntries_map_value (n : ℕ) (arts : List VArtifact) :
    (mkEntries n arts).map (fun e => e.estimated_value) = arts.map artifactValue := by
  induction arts generalizing n with
  | nil => rfl
  | cons a rest ih => simp [mkEntries, mkEntry, ih]

theorem mkEntries_length (n : ℕ) (arts : List VArtifact) :
    (mkEntries n arts).length = arts.length := by
  induction arts generalizing n with
  | nil => rfl
  | cons a rest ih => simp [mkEntries, ih]

theorem reindexFrom_map_value (n : ℕ) (l : List ReportEntry) :
    (reindexFrom n l).map (fun e => e.estimated_value) = l.map (fun e => e.estimated_value) := by
  induction l generalizing n with
  | nil => rfl
  | cons e rest ih => simp [reindexFrom, ih]

theorem reindexFrom_map_index (n : ℕ) (l : List ReportEntry) :
    (reindexFrom n l).map (fun e => e.index_number) = List.range' n l.length := by
  induction l generalizing n with
  | nil => rfl
  | cons e rest ih => simp [reindexFrom, ih, List.range']

theorem pairwise_value_iff_map (l : List ReportEntry) :
    l.Pairwise (fun e f => f.estimated_value ≤ e.estimated_value) ↔
      (l.map (fun e => e.estimated_value)).Pairwise (fun x y => y ≤ x) := by
  rw [List.pairwise_map]

theorem entrySortRel_trans : ∀ (a b c : ReportEntry),
    (fun e f => decide (f.estimated_value ≤ e.estimated_value)) a b = true →
    (fun e f => decide (f.estimated_value ≤ e.estimated_value)) b c = true →
    (fun e f => decide (f.estimated_value ≤ e.estimated_value)) a c = true := by
  intro a b c hab hbc
  simp only [decide_eq_true_eq] at hab hbc ⊢
  exact le_trans hbc hab

theorem entrySortRel_total : ∀ (a b : ReportEntry),
    ((fun e f => decide (f.estimated_value ≤ e.estimated_value)) a b ||
      (fun e f => decide (f.estimated_value ≤ e.estimated_value)) b a) = true := by
  intro a b
  simp only [Bool.or_eq_true, decide_eq_true_eq]
  exact le_total b.estimated_value a.estimated_value

/-- C3: the composed report's `metadata.total_estimated_value` and executive
summary total both equal the sum of the artifacts' estimated values, the sum of
the produced entries' values is that same total, the `artifacts` list of the
report is sorted in descending order of estimated value, and its
`index_number`s are reassigned 1..N after sorting. -/
theorem composeReport_totals_sorted (arts : List VArtifact) :
    (composeReport arts).metadata_total_estimated_value = (arts.map artifactValue).sum ∧
    (composeReport arts).summary_total_estimated_value = (arts.map artifactValue).sum ∧
    (((composeReport arts).artifacts).map (fun e => e.estimated_value)).sum =
      (arts.map artifactValue).sum ∧
    ((composeReport arts).artifacts).Pairwise
      (fun e f => f.estimated_value ≤ e.estimated_value) ∧
    ((composeReport arts).artifacts).map (fun e => e.index_number) =
      List.range' 1 arts.length := by
  refine ⟨rfl, rfl, ?_, ?_, ?_⟩
  · show ((createArtifactEntries arts).map (fun e => e.estimated_value)).sum = _
    simp only [createArtifactEntries]
    rw [reindexFrom_map_value]
    have hperm := List.mergeSort_perm (mkEntries 1 arts)
      (fun e f => decide (f.estimated_value ≤ e.estimated_value))
    calc (((mkEntries 1 arts).mergeSort
            (fun e f => decide (f.estimated_value ≤ e.estimated_value))).map
              (fun e => e.estimated_value)).sum
        = ((mkEntries 1 arts).map (fun e => e.estimated_value)).sum :=
          (hperm.map (fun e => e.estimated_value)).sum_eq
      _ = (arts.map artifactValue).sum := by rw [mkEntries_map_value]
  · show (createArtifactEntries arts).Pairwise _
    simp only [createArtifactEntries]
    have hsorted := List.sorted_mergeSort entrySortRel_trans entrySortRel_total
      (mkEntries 1 arts)
    have hs : ((mkEntries 1 arts).mergeSort
        (fun e f => decide (f.estimated_value ≤ e.estimated_value))).Pairwise
          (fun e f => f.estimated_value ≤ e.estimated_value) := by
      refine hsorted.imp ?_
      intro a b h
      simpa using h
    rw [pairwise_value_iff_map] at hs ⊢
    rwa [reindexFrom_map_value]
  · show (createArtifactEntries arts).map (fun e => e.index_number) = _
    simp only [createArtifactEntries]
    rw [reindexFrom_map_index]
    congr 1
    rw [(List.mergeSort_perm _ _).length_eq, mkEntries_length]

/- ## Claim C8 -/

theorem calcSourceQuality_bounds (s : CSource) :
    (1/2 : ℚ) ≤ calcSourceQuality s ∧ calcSourceQuality s ≤ 1 := by
  unfold calcSourceQuality
  refine ⟨le_min ?_ (by norm_num), min_le_right _ _⟩
  split_ifs <;> norm_num

theorem mapped_quality_eq (ss : List CSource) :
    (validateSources ss).map (fun s => ((s.validation.map (fun v => v.quality_score)).getD 0.5)) =
      ss.map (fun s => calcSourceQuality s) := by
  unfold validateSources
  rw [List.map_map]
  rfl

theorem mul_length_le_sum (l : List ℚ) (c : ℚ) (h : ∀ x ∈ l, c ≤ x) :
    c * l.length ≤ l.sum := by
  induction l with
  | nil => simp
  | cons x xs ih =>
    have hx := h x (List.mem_cons_self _ _)
    have hxs := ih (fun y hy => h y (List.mem_cons_of_mem _ hy))
    simp only [List.length_cons, List.sum_cons]
    push_cast
    nlinarith

/-- C8: every per-source quality score lies in [0.5, 1.0] (base 0.5 plus
non-negative bonuses, clipped at 1.0), every validated source carries a
validation record whose quality score is in [0.5, 1.0] — in particular a
source with `verified = false` still has quality at least 0.5 — and the
aggregate source quality score of a non-empty validated list is at least
0.5. -/
theorem sourceQualityScores_floor (s : CSource) (ss : List CSource) (hne : ss ≠ []) :
    ((1/2 : ℚ) ≤ calcSourceQuality s ∧ calcSourceQuality s ≤ 1) ∧
    (∀ t ∈ validateSources ss, ∃ v, t.validation = some v ∧
      (1/2 : ℚ) ≤ v.quality_score ∧ v.quality_score ≤ 1) ∧
    (1/2 : ℚ) ≤ sourceQualityScore (validateSources ss) := by
  refine ⟨calcSourceQuality_bounds s, ?_, ?_⟩
  · intro t ht
    unfold validateSources at ht
    obtain ⟨u, hu, rfl⟩ := List.mem_map.mp ht
    exact ⟨_, rfl, calcSourceQuality_bounds u⟩
  · unfold sourceQualityScore
    have hnil : validateSources ss ≠ [] := by
      unfold validateSources
      simpa using hne
    rw [if_neg (by simpa using hnil)]
    rw [mapped_quality_eq]
    have hlen : (validateSources ss).length = ss.length := by
      unfold validateSources
      rw [List.length_map]
    rw [hlen]
    have hpos : (0:ℚ) < ss.length := by
      have := List.length_pos.mpr hne
      exact_mod_cast this
    rw [le_div_iff₀ hpos]
    have hsum : (1/2 : ℚ) * (ss.map (fun s => calcSourceQuality s)).length ≤
        (ss.map (fun s => calcSourceQuality s)).sum := by
      apply mul_length_le_sum
      intro x hx
      obtain ⟨u, _, rfl⟩ := List.mem_map.mp hx
      exact (calcSourceQuality_bounds u).1
    rwa [List.length_map] at hsum

/-- Witness for C8 at a single unverified plain source. -/
theorem sourceQualityScores_floor_witness :
    ([(⟨"web", "t", "u", "s", "d", "2020", none, none⟩ : CSource)] ≠ []) ∧
    (((1/2 : ℚ) ≤ calcSourceQuality ⟨"web", "t", "u", "s", "d", "2020", none, none⟩ ∧
        calcSourceQuality ⟨"web", "t", "u", "s", "d", "2020", none, none⟩ ≤ 1) ∧
      (∀ t ∈ validateSources [⟨"web", "t", "u", "s", "d", "2020", none, none⟩],
        ∃ v, t.validation = some v ∧
          (1/2 : ℚ) ≤ v.quality_score ∧ v.quality_score ≤ 1) ∧
      (1/2 : ℚ) ≤ sourceQualityScore
        (validateSources [⟨"web", "t", "u", "s", "d", "2020", none, none⟩])) :=
  ⟨by simp, sourceQualityScores_floor _ _ (by simp)⟩

/- ## Claim C4 -/

theorem srcSortRel_trans : ∀ (a b c : CSource),
    (fun s t => decide (combinedScore t ≤ combinedScore s)) a b = true →
    (fun s t => decide (combinedScore t ≤ combinedScore s)) b c = true →
    (fun s t => decide (combinedScore t ≤ combinedScore s)) a c = true := by
  intro a b c hab hbc
  simp only [decide_eq_true_eq] at hab hbc ⊢
  exact le_trans hbc hab

theorem srcSortRel_total : ∀ (a b : CSource),
    ((fun s t => decide (combinedScore t ≤ combinedScore s)) a b ||
      (fun s t => decide (combinedScore t ≤ combinedScore s)) b a) = true := by
  intro a b
  simp only [Bool.or_eq_true, decide_eq_true_eq]
  exact le_total (combinedScore b) (combinedScore a)

theorem pairwise_combined_validate (l : List CSource)
    (h : l.Pairwise (fun s t => combinedScore t ≤ combinedScore s)) :
    (validateSources l).Pairwise (fun s t => combinedScore t ≤ combinedScore s) := by
  unfold validateSources
  rw [List.pairwise_map]
  exact h

/-- C4: for an artifact with no initial sources whose additional-source search
yields 5 hits, each scoring relevance above 0.3, the citation verifier returns
exactly 3 final sources (the `MAX_SOURCES_PER_ARTIFACT` cap), ordered
descending by the combined score 0.6*quality + 0.4*relevance. -/
theorem citationVerifier_caps_and_ranks (initialSources : List CSource)
    (artifactTitle : String) (hits : List Hit)
    (hempty : initialSources = []) (hlen : hits.length = 5)
    (hrel : ∀ h ∈ hits,
      (0.3:ℚ) < calcSourceRelevance h.title (h.description.getD "") artifactTitle) :
    ((verifyAndEnhanceCitations initialSources artifactTitle hits).1).length = 3 ∧
    ((verifyAndEnhanceCitations initialSources artifactTitle hits).1).Pairwise
      (fun s t => combinedScore t ≤ combinedScore s) := by
  subst hempty
  have hadd : findAdditionalSources hits artifactTitle =
      hits.map (fun h => mkAdditionalSource h artifactTitle) := by
    unfold findAdditionalSources
    rw [List.filter_eq_self]
    intro s hs
    obtain ⟨h, hh, rfl⟩ := List.mem_map.mp hs
    simpa [mkAdditionalSource] using hrel h hh
  have hlen1 : (findAdditionalSources hits artifactTitle).length = 5 := by
    rw [hadd, List.length_map, hlen]
  have hrank : (rankAndFilterSources (findAdditionalSources hits artifactTitle)).length = 5 := by
    unfold rankAndFilterSources
    rw [(List.mergeSort_perm _ _).length_eq, hlen1]
  simp only [verifyAndEnhanceCitations, MIN_SOURCES_PER_ARTIFACT, MAX_SOURCES_PER_ARTIFACT,
    List.length_nil, List.nil_append]
  norm_num
  have hc : 3 < (findAdditionalSources hits artifactTitle).length := by
    rw [hlen1]; norm_num
  rw [if_pos hc]
  constructor
  · unfold validateSources
    rw [List.length_map, List.length_take, hrank]
    norm_num
  · apply pairwise_combined_validate
    have hsorted := List.sorted_mergeSort srcSortRel_trans srcSortRel_total
      (findAdditionalSources hits artifactTitle)
    have hs : (rankAndFilterSources (findAdditionalSources hits artifactTitle)).Pairwise
        (fun s t => combinedScore t ≤ combinedScore s) := by
      unfold rankAndFilterSources
      refine hsorted.imp ?_
      intro a b h
      simpa using h
    exact List.Pairwise.sublist (List.take_sublist _ _) hs

/-- Witness for C4: no initial sources, five identical mock hits, each of
relevance 0.5 > 0.3 against the empty artifact title. -/
theorem citationVerifier_caps_and_ranks_witness :
    (([] : List CSource) = [] ∧
      ([⟨"t", "u", "s", none, none⟩, ⟨"t", "u", "s", none, none⟩, ⟨"t", "u", "s", none, none⟩,
        ⟨"t", "u", "s", none, none⟩, ⟨"t", "u", "s", none, none⟩] : List Hit).length = 5 ∧
      ∀ h ∈ ([⟨"t", "u", "s", none, none⟩, ⟨"t", "u", "s", none, none⟩,
          ⟨"t", "u", "s", none, none⟩, ⟨"t", "u", "s", none, none⟩,
          ⟨"t", "u", "s", none, none⟩] : List Hit),
        (0.3:ℚ) < calcSourceRelevance h.title (h.description.getD "") "") ∧
    (((verifyAndEnhanceCitations [] ""
        [⟨"t", "u", "s", none, none⟩, ⟨"t", "u", "s", none, none⟩, ⟨"t", "u", "s", none, none⟩,
         ⟨"t", "u", "s", none, none⟩, ⟨"t", "u", "s", none, none⟩]).1).length = 3 ∧
      ((verifyAndEnhanceCitations [] ""
        [⟨"t", "u", "s", none, none⟩, ⟨"t", "u", "s", none, none⟩, ⟨"t", "u", "s", none, none⟩,
         ⟨"t", "u", "s", none, none⟩, ⟨"t", "u", "s", none, none⟩]).1).Pairwise
        (fun s t => combinedScore t ≤ combinedScore s)) := by
  have hone : (0.3:ℚ) < calcSourceRelevance "t" "" "" := by
    have h1 : (pyWords (lowerStr "")).dedup = [] := by decide
    have h2 : strTake (lowerStr "") 30 = "" := by decide
    have h3 : strContains (lowerStr "t" ++ " " ++ lowerStr "") "" = true := by decide
    have h4 : strContains (lowerStr "t" ++ " " ++ lowerStr "") "2020" = false := by decide
    simp only [calcSourceRelevance, h1, h2, h3, h4, List.filter_nil, List.isEmpty_nil,
      not_true, if_false, if_true]
    norm_num [min_def]
  have hrel : ∀ h ∈ ([⟨"t", "u", "s", none, none⟩, ⟨"t", "u", "s", none, none⟩,
      ⟨"t", "u", "s", none, none⟩, ⟨"t", "u", "s", none, none⟩,
      ⟨"t", "u", "s", none, none⟩] : List Hit),
      (0.3:ℚ) < calcSourceRelevance h.title (h.description.getD "") "" := by
    intro h hh
    simp only [List.mem_cons, List.not_mem_nil, or_false] at hh
    rcases hh with rfl | rfl | rfl | rfl | rfl <;> exact hone
  exact ⟨⟨rfl, rfl, hrel⟩, citationVerifier_caps_and_ranks [] "" _ rfl rfl hrel⟩

/- ## Claim C10 -/

/-- C10: when the artifact's title is the empty string, the source relevance
score is at least 0.5 for every candidate source (the empty 30-character title
slice occurs in any source text), so every search hit passes the 0.3 relevance
filter and is added as an additional source. -/
theorem emptyTitle_relevance_all_added (artifactTitle : String) (hT : artifactTitle = "")
    (hits : List Hit) :
    (∀ sourceTitle sourceDescription : String,
      (1/2 : ℚ) ≤ calcSourceRelevance sourceTitle sourceDescription artifactTitle) ∧
    (findAdditionalSources hits artifactTitle).length = hits.length := by
  subst hT
  have key : ∀ sT sD : String, (1/2 : ℚ) ≤ calcSourceRelevance sT sD "" := by
    intro sT sD
    have h1 : (pyWords (lowerStr "")).dedup = [] := by decide
    have h2 : strTake (lowerStr "") 30 = "" := by decide
    simp only [calcSourceRelevance, h1, h2, List.filter_nil, List.isEmpty_nil, not_true,
      if_false, strContains_nil, if_true]
    refine le_min ?_ (by norm_num)
    split_ifs <;> norm_num
  refine ⟨key, ?_⟩
  unfold findAdditionalSources
  rw [List.filter_eq_self.mpr, List.length_map]
  intro s hs
  obtain ⟨h, hh, rfl⟩ := List.mem_map.mp hs
  simp only [mkAdditionalSource, Option.getD_some, decide_eq_true_eq]
  exact lt_of_lt_of_le (by norm_num) (key _ _)

/-- Witness for C10 at a concrete hit list and the empty artifact title. -/
theorem emptyTitle_relevance_all_added_witness :
    ("" : String) = "" ∧
    ((∀ sourceTitle sourceDescription : String,
        (1/2 : ℚ) ≤ calcSourceRelevance sourceTitle sourceDescription "") ∧
      (findAdditionalSources [⟨"t", "u", "s", none, none⟩] "").length =
        ([⟨"t", "u", "s", none, none⟩] : List Hit).length) :=
  ⟨rfl, emptyTitle_relevance_all_added "" rfl [⟨"t", "u", "s", none, none⟩]⟩

/- ## Claim C7 -/

/-- C7: re-running the enrichment stage (with the mock API client every
artifact goes through the fallback profile) on an already-enriched artifact
list changes nothing outside the four profile fields: `title`, `typ`, `url`,
`date`, the `enrichment_fallback` marker, and every other dictionary entry
(`others`) are preserved pairwise between the first and the second run. -/
theorem enrichMock_rerun_frame (arts : List EArtifact) (year0 year1 : ℤ) :
    List.Forall₂ (fun a b => b.title = a.title ∧ b.typ = a.typ ∧ b.url = a.url ∧
        b.date = a.date ∧ b.others = a.others ∧
        b.enrichment_fallback = a.enrichment_fallback)
      (enrichArtifactsMock arts year0)
      (enrichArtifactsMock (enrichArtifactsMock arts year0) year1) := by
  unfold enrichArtifactsMock
  rw [List.map_map]
  induction arts with
  | nil => simp
  | cons a rest ih =>
    simp only [List.map_cons, List.forall₂_cons]
    exact ⟨⟨rfl, rfl, rfl, rfl, rfl, rfl⟩, ih⟩

/- ## Claim C9 -/

theorem insertKey_nodup (ks : List String) (t : String) (h : ks.Nodup) :
    (insertKey ks t).Nodup := by
  unfold insertKey
  split_ifs with hmem
  · exact h
  · rw [List.nodup_append]
    refine ⟨h, List.nodup_singleton t, ?_⟩
    intro a ha hb
    rw [List.mem_singleton] at hb
    subst hb
    exact hmem ha

theorem mem_insertKey (ks : List String) (t x : String) :
    x ∈ insertKey ks t ↔ x ∈ ks ∨ x = t := by
  unfold insertKey
  split_ifs with hmem
  · constructor
    · exact Or.inl
    · rintro (hx | rfl)
      · exact hx
      · exact hmem
  · simp [List.mem_append]

theorem typeKeys_foldl_aux (arts : List VArtifact) :
    ∀ ks : List String,
      (ks.Nodup → (arts.foldl (fun ks a => insertKey ks a.typ) ks).Nodup) ∧
      (∀ x, x ∈ arts.foldl (fun ks a => insertKey ks a.typ) ks ↔
        x ∈ ks ∨ ∃ a ∈ arts, a.typ = x) := by
  induction arts with
  | nil => intro ks; simp
  | cons a rest ih =>
    intro ks
    constructor
    · intro hnd
      exact (ih (insertKey ks a.typ)).1 (insertKey_nodup _ _ hnd)
    · intro x
      rw [List.foldl_cons, (ih (insertKey ks a.typ)).2 x, mem_insertKey]
      constructor
      · rintro ((hx | rfl) | ⟨b, hb, rfl⟩)
        · exact Or.inl hx
        · exact Or.inr ⟨a, by simp⟩
        · exact Or.inr ⟨b, by simp [hb]⟩
      · rintro (hx | ⟨b, hb, rfl⟩)
        · exact Or.inl (Or.inl hx)
        · rw [List.mem_cons] at hb
          rcases hb with rfl | hb
          · exact Or.inl (Or.inr rfl)
          · exact Or.inr ⟨b, hb, rfl⟩

theorem typeKeys_nodup (arts : List VArtifact) : (typeKeys arts).Nodup :=
  (typeKeys_foldl_aux arts []).1 List.nodup_nil

theorem mem_typeKeys (arts : List VArtifact) (x : String) :
    x ∈ typeKeys arts ↔ ∃ a ∈ arts, a.typ = x := by
  rw [typeKeys, (typeKeys_foldl_aux arts []).2 x]
  simp

theorem mem_typeIndices (arts : List VArtifact) (t : String) (i : ℕ) :
    i ∈ typeIndices arts t ↔ ∃ h : i < arts.length, (arts.get ⟨i, h⟩).typ = t := by
  unfold typeIndices
  rw [List.mem_map]
  constructor
  · rintro ⟨p, hp, rfl⟩
    rw [List.mem_filter] at hp
    obtain ⟨hpe, hpt⟩ := hp
    rw [List.mem_enum_iff_get?, List.get?_eq_some] at hpe
    obtain ⟨h, hget⟩ := hpe
    refine ⟨h, ?_⟩
    rw [hget]
    exact eq_of_beq hpt
  · rintro ⟨h, ht⟩
    refine ⟨(i, arts.get ⟨i, h⟩), ?_, rfl⟩
    rw [List.mem_filter]
    refine ⟨?_, by simpa using ht⟩
    rw [List.mem_enum_iff_get?, List.get?_eq_some]
    exact ⟨h, rfl⟩

theorem typeSortRel_trans (arts : List VArtifact) : ∀ (a b c : String),
    (fun t u => decide (typeValue arts u ≤ typeValue arts t)) a b = true →
    (fun t u => decide (typeValue arts u ≤ typeValue arts t)) b c = true →
    (fun t u => decide (typeValue arts u ≤ typeValue arts t)) a c = true := by
  intro a b c hab hbc
  simp only [decide_eq_true_eq] at hab hbc ⊢
  exact le_trans hbc hab

theorem typeSortRel_total (arts : List VArtifact) : ∀ (a b : String),
    ((fun t u => decide (typeValue arts u ≤ typeValue arts t)) a b ||
      (fun t u => decide (typeValue arts u ≤ typeValue arts t)) b a) = true := by
  intro a b
  simp only [Bool.or_eq_true, decide_eq_true_eq]
  exact le_total (typeValue arts b) (typeValue arts a)

theorem types_sorted (arts : List VArtifact) :
    ((typeKeys arts).mergeSort
        (fun t u => decide (typeValue arts u ≤ typeValue arts t))).Pairwise
      (fun t u => typeValue arts u ≤ typeValue arts t) := by
  have h := List.sorted_mergeSort (typeSortRel_trans arts) (typeSortRel_total arts)
    (typeKeys arts)
  refine h.imp ?_
  intro a b hab
  simpa using hab

theorem topTypes_nodup (arts : List VArtifact) : (topTypes arts).Nodup := by
  unfold topTypes
  exact List.Nodup.sublist (List.take_sublist _ _)
    ((List.mergeSort_perm _ _).nodup_iff.mpr (typeKeys_nodup arts))

theorem topTypes_subset (arts : List VArtifact) : topTypes arts ⊆ typeKeys arts := by
  intro x hx
  unfold topTypes at hx
  exact (List.mergeSort_perm _ _).mem_iff.mp ((List.take_sublist _ _).subset hx)

theorem topTypes_all (arts : List VArtifact) (h : (typeKeys arts).length ≤ 5) :
    ∀ t ∈ typeKeys arts, t ∈ topTypes arts := by
  intro t ht
  unfold topTypes
  rw [List.take_of_length_le]
  · exact (List.mergeSort_perm _ _).mem_iff.mpr ht
  · rw [(List.mergeSort_perm _ _).length_eq]
    exact h

theorem topTypes_missing (arts : List VArtifact) (h : 5 < (typeKeys arts).length) :
    ∃ t ∈ typeKeys arts, t ∉ topTypes arts := by
  by_contra hc
  push_neg at hc
  have hlen := (List.subperm_of_subset (typeKeys_nodup arts) hc).length_le
  have hlen5 : (topTypes arts).length ≤ 5 := by
    unfold topTypes
    rw [List.length_take]
    exact min_le_left _ _
  omega

theorem topTypes_dominate (arts : List VArtifact) :
    ∀ t ∈ topTypes arts, ∀ u ∈ typeKeys arts, u ∉ topTypes arts →
      typeValue arts u ≤ typeValue arts t := by
  intro t ht u hu hun
  have hsp := types_sorted arts
  rw [← List.take_append_drop 5
    ((typeKeys arts).mergeSort (fun t u => decide (typeValue arts u ≤ typeValue arts t))),
    List.pairwise_append] at hsp
  obtain ⟨_, _, hcross⟩ := hsp
  have hu2 : u ∈ (typeKeys arts).mergeSort
      (fun t u => decide (typeValue arts u ≤ typeValue arts t)) :=
    (List.mergeSort_perm _ _).mem_iff.mpr hu
  rw [← List.take_append_drop 5
    ((typeKeys arts).mergeSort (fun t u => decide (typeValue arts u ≤ typeValue arts t))),
    List.mem_append] at hu2
  rcases hu2 with hu2 | hu2
  · exact absurd hu2 hun
  · exact hcross t ht u hu2

/-- C9: the fallback categorization (taken whenever the API result fails
parsing or validation) groups by type and keeps the 5 types of greatest total
estimated value: its categories' `artifact_indices` are pairwise disjoint;
they cover all indices 0..N-1 exactly when the artifact list spans at most 5
distinct type values; with more than 5 distinct types some artifact index
appears in no category; and any kept category's total value dominates the
total value of every dropped type. -/
theorem fallbackCategorization_partition (arts : List VArtifact) :
    ((fallbackCategorization arts).Pairwise
      (fun c d => ∀ i ∈ c.artifact_indices, i ∉ d.artifact_indices)) ∧
    ((∀ i, i < arts.length → ∃ c ∈ fallbackCategorization arts, i ∈ c.artifact_indices) ↔
      (typeKeys arts).length ≤ 5) ∧
    (5 < (typeKeys arts).length →
      ∃ i, i < arts.length ∧ ∀ c ∈ fallbackCategorization arts, i ∉ c.artifact_indices) ∧
    (∀ c ∈ fallbackCategorization arts, ∀ u ∈ typeKeys arts, u ∉ topTypes arts →
      typeValue arts u ≤ c.total_value) := by
  have hmiss : 5 < (typeKeys arts).length →
      ∃ i, i < arts.length ∧ ∀ c ∈ fallbackCategorization arts, i ∉ c.artifact_indices := by
    intro h5
    obtain ⟨t, htk, htn⟩ := topTypes_missing arts h5
    obtain ⟨a, ha, hat⟩ := (mem_typeKeys arts t).mp htk
    obtain ⟨n, hn⟩ := List.mem_iff_get?.mp ha
    rw [List.get?_eq_some] at hn
    obtain ⟨hlt, hget⟩ := hn
    refine ⟨n, hlt, ?_⟩
    intro c hc hmem
    obtain ⟨u, hu, rfl⟩ := List.mem_map.mp hc
    obtain ⟨h2, ht2⟩ := (mem_typeIndices arts u n).mp hmem
    have hgeteq : arts.get ⟨n, h2⟩ = a := hget
    rw [hgeteq, hat] at ht2
    exact htn (ht2 ▸ hu)
  have hcover : (typeKeys arts).length ≤ 5 →
      ∀ i, i < arts.length → ∃ c ∈ fallbackCategorization arts, i ∈ c.artifact_indices := by
    intro h5 i hi
    have hak : (arts.get ⟨i, hi⟩).typ ∈ typeKeys arts :=
      (mem_typeKeys arts _).mpr ⟨arts.get ⟨i, hi⟩, List.get_mem _ _ _, rfl⟩
    have htop := topTypes_all arts h5 _ hak
    refine ⟨_, List.mem_map.mpr ⟨(arts.get ⟨i, hi⟩).typ, htop, rfl⟩, ?_⟩
    exact (mem_typeIndices arts _ i).mpr ⟨hi, rfl⟩
  refine ⟨?_, ⟨?_, hcover⟩, hmiss, ?_⟩
  · unfold fallbackCategorization
    rw [List.pairwise_map]
    have hpw : (topTypes arts).Pairwise (fun a b => a ≠ b) := topTypes_nodup arts
    refine hpw.imp ?_
    intro t u hne i hit hiu
    obtain ⟨h1, ht1⟩ := (mem_typeIndices arts t i).mp hit
    obtain ⟨h2, ht2⟩ := (mem_typeIndices arts u i).mp hiu
    have heq : arts.get ⟨i, h1⟩ = arts.get ⟨i, h2⟩ := rfl
    rw [← ht1, ← ht2, heq] at hne
    exact hne rfl
  · intro hcov
    by_contra h5
    push_neg at h5
    obtain ⟨i, hi, hnone⟩ := hmiss h5
    obtain ⟨c, hc, hmem⟩ := hcov i hi
    exact hnone c hc hmem
  · intro c hc u hu hun
    obtain ⟨t, ht, rfl⟩ := List.mem_map.mp hc
    exact topTypes_dominate arts t ht u hu hun

/-- Witness for C9: instantiation at a concrete one-artifact list. -/
theorem fallbackCategorization_partition_witness :
    ((fallbackCategorization [⟨"t", "Patent", "d", "u", "2020", 0.5, none⟩]).Pairwise
      (fun c d => ∀ i ∈ c.artifact_indices, i ∉ d.artifact_indices)) ∧
    ((∀ i, i < ([⟨"t", "Patent", "d", "u", "2020", 0.5, none⟩] : List VArtifact).length →
        ∃ c ∈ fallbackCategorization [⟨"t", "Patent", "d", "u", "2020", 0.5, none⟩],
          i ∈ c.artifact_indices) ↔
      (typeKeys [⟨"t", "Patent", "d", "u", "2020", 0.5, none⟩]).length ≤ 5) ∧
    (5 < (typeKeys [⟨"t", "Patent", "d", "u", "2020", 0.5, none⟩]).length →
      ∃ i, i < ([⟨"t", "Patent", "d", "u", "2020", 0.5, none⟩] : List VArtifact).length ∧
        ∀ c ∈ fallbackCategorization [⟨"t", "Patent", "d", "u", "2020", 0.5, none⟩],
          i ∉ c.artifact_indices) ∧
    (∀ c ∈ fallbackCategorization [⟨"t", "Patent", "d", "u", "2020", 0.5, none⟩],
      ∀ u ∈ typeKeys [⟨"t", "Patent", "d", "u", "2020", 0.5, none⟩],
        u ∉ topTypes [⟨"t", "Patent", "d", "u", "2020", 0.5, none⟩] →
          typeValue [⟨"t", "Patent", "d", "u", "2020", 0.5, none⟩] u ≤ c.total_value) :=
  fallbackCategorization_partition [⟨"t", "Patent", "d", "u", "2020", 0.5, none⟩]
